import Mathlib

/-!
Verification of the project registry / metadata subsystem of pysspm.

The Python sources under `src/pyspm` (configuration store, per-project
metadata store, global id counter, project layout and scanner) are embedded
shallowly: text files become explicit values, `configparser` state becomes an
ordered association list of sections, exceptions become an explicit error
type, and every filesystem-mutating operation threads an explicit
filesystem value.
-/

/-- Error taxonomy of the subsystem.  Each constructor corresponds to a
Python exception raised by the source: `unknownKey` is the
`ValueError("Invalid configuration/metadata key ...")` of
`ConfigurationParser.__getitem__`/`__setitem__` and
`MetadataParser.__getitem__`/`__setitem__`; `corruptFormat` is the
`ValueError("The file ... is corrupted!")` of
`GlobalMetadataManager.get_last_id`; `indexError` is the `IndexError` from
the unconditional `parts[1]` access; `attributeError` is the
`AttributeError` from calling a method that a class does not define;
`invalidEnum` and `invalidArgument` are the validation failures named by the
specification (sections 4.4 and 4.5). -/
inductive PyErr where
  | unknownKey
  | corruptFormat
  | indexError
  | attributeError
  | invalidEnum
  | invalidArgument
  | alreadyExists
  deriving DecidableEq, Repr

/-! ### Decimal digits: models of Python `str(int)` and `int(str)` -/

/-- The decimal digit character for `d` (`d ≤ 9`; larger inputs clamp to
`'9'`, which never occurs for `n % 10`). -/
def digitChar (d : Nat) : Char :=
  if d = 0 then '0' else if d = 1 then '1' else if d = 2 then '2'
  else if d = 3 then '3' else if d = 4 then '4' else if d = 5 then '5'
  else if d = 6 then '6' else if d = 7 then '7' else if d = 8 then '8'
  else '9'

/-- Fuel-driven decimal expansion of a natural number, most significant digit
first; `natDigs` supplies enough fuel for the recursion `n ↦ n / 10`. -/
def natDigsAux : Nat → Nat → List Char
  | 0, _ => []
  | fuel + 1, n =>
    if n < 10 then [digitChar n]
    else natDigsAux fuel (n / 10) ++ [digitChar (n % 10)]

/-- Decimal digit list of a natural number (model of Python `str` on a
non-negative `int`). -/
def natDigs (n : Nat) : List Char := natDigsAux (n + 1) n

/-- Decimal string of a natural number. -/
def natStr (n : Nat) : String := String.mk (natDigs n)

/-- Decimal character list of an integer (model of Python `str(int)`:
a `'-'` sign for negative values, no `'+'` for positive ones). -/
def intStrL (i : Int) : List Char :=
  if i < 0 then '-' :: natDigs i.natAbs else natDigs i.toNat

/-- Numeric value of a decimal digit character, `none` for anything else. -/
def digVal (c : Char) : Option Nat :=
  if '0' ≤ c ∧ c ≤ '9' then some (c.toNat - 48) else none

/-- Left-to-right accumulation of decimal digits. -/
def parseDigitsAux : List Char → Nat → Option Nat
  | [], acc => some acc
  | c :: cs, acc =>
    match digVal c with
    | some d => parseDigitsAux cs (10 * acc + d)
    | none => none

/-- Parse a non-empty, all-digit character list. -/
def parseDigits (cs : List Char) : Option Nat :=
  match cs with
  | [] => none
  | _ => parseDigitsAux cs 0

/-- The whitespace characters stripped by Python's `str.strip` and ignored
by `int()`. -/
def isPySpace (c : Char) : Bool :=
  c = ' ' ∨ c = '\t' ∨ c = '\n' ∨ c = '\r' ∨ c = '\x0b' ∨ c = '\x0c'

/-- Model of Python `str.strip()`: drop leading and trailing whitespace. -/
def pyStripL (cs : List Char) : List Char :=
  ((cs.dropWhile isPySpace).reverse.dropWhile isPySpace).reverse

/-- Sign-then-digits parse of a stripped character list. -/
def pyIntCore (cs : List Char) : Option Int :=
  match cs with
  | [] => none
  | c :: rest =>
    if c = '-' then (parseDigits rest).map (fun n : Nat => -(n : Int))
    else if c = '+' then (parseDigits rest).map (fun n : Nat => (n : Int))
    else (parseDigits (c :: rest)).map (fun n : Nat => (n : Int))

/-- Model of Python `int(str)`: surrounding whitespace is ignored, an
optional sign precedes the digits, anything else raises `ValueError`
(returned as `none` here; digit-group underscores are not modelled). -/
def pyIntL (cs : List Char) : Option Int := pyIntCore (pyStripL cs)

/-- Embedding of `int()` applied to a Lean string. -/
def pyInt (s : String) : Option Int := pyIntL s.toList

/-! ### Round-trip lemmas for the decimal model -/

theorem digVal_digitChar {d : Nat} (h : d < 10) : digVal (digitChar d) = some d := by
  unfold digitChar
  split_ifs with h0 h1 h2 h3 h4 h5 h6 h7 h8 <;>
    first
      | (subst_vars; decide)
      | (have : d = 9 := by omega
         subst this; decide)

theorem digitChar_mem (d : Nat) :
    digitChar d ∈ ['0', '1', '2', '3', '4', '5', '6', '7', '8', '9'] := by
  unfold digitChar
  split_ifs <;> simp

theorem parseDigitsAux_append (xs ys : List Char) (acc : Nat) :
    parseDigitsAux (xs ++ ys) acc =
      match parseDigitsAux xs acc with
      | some a => parseDigitsAux ys a
      | none => none := by
  induction xs generalizing acc with
  | nil => simp [parseDigitsAux]
  | cons c cs ih =>
    simp only [List.cons_append, parseDigitsAux]
    cases digVal c with
    | none => rfl
    | some d => exact ih _

theorem natDigsAux_ne_nil {fuel n : Nat} (h : n < fuel) : natDigsAux fuel n ≠ [] := by
  cases fuel with
  | zero => omega
  | succ f =>
    unfold natDigsAux
    split <;> simp

theorem parseDigitsAux_natDigsAux :
    ∀ fuel n acc, n < fuel →
      parseDigitsAux (natDigsAux fuel n) acc =
        some (acc * 10 ^ (natDigsAux fuel n).length + n) := by
  intro fuel
  induction fuel with
  | zero => intro n acc h; omega
  | succ f ih =>
    intro n acc h
    unfold natDigsAux
    by_cases h10 : n < 10
    · simp only [if_pos h10, parseDigitsAux, digVal_digitChar h10, List.length_singleton,
        pow_one, Option.some.injEq]
      omega
    · have hdiv : n / 10 < f := by
        have h1 : n / 10 < n := Nat.div_lt_self (by omega) (by omega)
        omega
      simp only [if_neg h10, parseDigitsAux_append, ih (n / 10) acc hdiv]
      have hmod : n % 10 < 10 := Nat.mod_lt _ (by omega)
      simp only [parseDigitsAux, digVal_digitChar hmod, List.length_append,
        List.length_singleton, Option.some.injEq]
      have hpow : acc * 10 ^ ((natDigsAux f (n / 10)).length + 1) =
          (acc * 10 ^ (natDigsAux f (n / 10)).length) * 10 := by ring
      rw [hpow]
      generalize acc * 10 ^ (natDigsAux f (n / 10)).length = B
      omega

theorem natDigs_ne_nil (n : Nat) : natDigs n ≠ [] :=
  natDigsAux_ne_nil (Nat.lt_succ_self n)

theorem natDigs_cons (n : Nat) : ∃ c cs, natDigs n = c :: cs := by
  cases hcase : natDigs n with
  | nil => exact absurd hcase (natDigs_ne_nil n)
  | cons c cs => exact ⟨c, cs, rfl⟩

theorem parseDigits_natDigs (n : Nat) : parseDigits (natDigs n) = some n := by
  have h : parseDigitsAux (natDigs n) 0 = some (0 * 10 ^ (natDigs n).length + n) :=
    parseDigitsAux_natDigsAux (n + 1) n 0 (Nat.lt_succ_self n)
  rw [Nat.zero_mul, Nat.zero_add] at h
  obtain ⟨c, cs, hd⟩ := natDigs_cons n
  rw [hd] at h
  unfold parseDigits
  rw [hd]
  exact h

theorem natDigs_mem_digits {n : Nat} {c : Char} (h : c ∈ natDigs n) :
    c ∈ ['0', '1', '2', '3', '4', '5', '6', '7', '8', '9'] := by
  unfold natDigs at h
  generalize hf : n + 1 = fuel at h
  clear hf
  induction fuel generalizing n with
  | zero => simp [natDigsAux] at h
  | succ f ih =>
    unfold natDigsAux at h
    split at h
    · simp at h
      subst h
      exact digitChar_mem n
    · rcases List.mem_append.mp h with h' | h'
      · exact ih h'
      · simp at h'
        subst h'
        exact digitChar_mem (n % 10)

theorem digit_not_space {c : Char}
    (h : c ∈ ['0', '1', '2', '3', '4', '5', '6', '7', '8', '9']) :
    isPySpace c = false := by
  fin_cases h <;> decide

theorem dropWhile_eq_self_of {p : Char → Bool} :
    ∀ (l : List Char), (∀ c ∈ l, p c = false) → l.dropWhile p = l := by
  intro l h
  cases l with
  | nil => rfl
  | cons a l' =>
    simp [List.dropWhile_cons, h a (List.mem_cons_self a l')]

theorem pyStripL_eq_self {cs : List Char} (h : ∀ c ∈ cs, isPySpace c = false) :
    pyStripL cs = cs := by
  unfold pyStripL
  rw [dropWhile_eq_self_of cs h]
  rw [dropWhile_eq_self_of cs.reverse (fun c hc => h c (List.mem_reverse.mp hc))]
  exact List.reverse_reverse cs

theorem natDigs_head_not_sign {n : Nat} {c : Char} {cs : List Char}
    (h : natDigs n = c :: cs) : c ≠ '-' ∧ c ≠ '+' := by
  have hc : c ∈ natDigs n := by rw [h]; exact List.mem_cons_self c cs
  have := natDigs_mem_digits hc
  fin_cases this <;> decide

theorem pyIntCore_cons (c : Char) (rest : List Char) :
    pyIntCore (c :: rest) =
      if c = '-' then (parseDigits rest).map (fun n : Nat => -(n : Int))
      else if c = '+' then (parseDigits rest).map (fun n : Nat => (n : Int))
      else (parseDigits (c :: rest)).map (fun n : Nat => (n : Int)) := rfl

theorem pyIntL_natDigs (n : Nat) : pyIntL (natDigs n) = some (n : Int) := by
  unfold pyIntL
  rw [pyStripL_eq_self (fun c hc => digit_not_space (natDigs_mem_digits hc))]
  obtain ⟨c, cs, hd⟩ := natDigs_cons n
  obtain ⟨hm, hp⟩ := natDigs_head_not_sign hd
  rw [hd, pyIntCore_cons, if_neg hm, if_neg hp]
  rw [← hd, parseDigits_natDigs]
  rfl

theorem pyIntL_intStrL (i : Int) : pyIntL (intStrL i) = some i := by
  unfold intStrL
  by_cases hneg : i < 0
  · rw [if_pos hneg]
    unfold pyIntL
    rw [pyStripL_eq_self]
    · have hcore : pyIntCore ('-' :: natDigs i.natAbs)
          = (parseDigits (natDigs i.natAbs)).map (fun n : Nat => -(n : Int)) := rfl
      rw [hcore, parseDigits_natDigs]
      show some (-(i.natAbs : Int)) = some i
      congr 1
      omega
    · intro c hc
      rcases List.mem_cons.mp hc with h' | h'
      · subst h'; decide
      · exact digit_not_space (natDigs_mem_digits h')
  · rw [if_neg hneg]
    rw [pyIntL_natDigs]
    congr 1
    omega

/-! ### The two-level key/value store

Embedding of the `configparser.ConfigParser` state held by
`ConfigurationParser` (src/pyspm/config.py) and `MetadataParser`
(src/pyspm/metadata.py): an ordered association list of sections, each an
ordered association list of keys to string values.  Since every `__setitem__`
immediately rewrites the whole file, the in-memory mapping and the on-disk
file always carry the same `Store` value, and one value stands for both. -/

/-- One section: ordered key/value pairs. -/
abbrev Sec := List (String × String)

/-- A parsed configuration/metadata file: ordered sections. -/
abbrev Store := List (String × Sec)

/-- Key lookup inside a section (`key in self._config[section]`). -/
def Sec.get? : Sec → String → Option String
  | [], _ => none
  | (k', v') :: rest, k => if k' = k then some v' else Sec.get? rest k

/-- Update an existing key (appends when absent, which never happens after
the membership check of `__setitem__`). -/
def Sec.set : Sec → String → String → Sec
  | [], k, v => [(k, v)]
  | (k', v') :: rest, k, v =>
    if k' = k then (k, v) :: rest else (k', v') :: Sec.set rest k v

/-- Section lookup (`section in self._config.sections()` plus access). -/
def Store.section? : Store → String → Option Sec
  | [], _ => none
  | (s', sec) :: rest, s => if s' = s then some sec else Store.section? rest s

/-- Update key `k` of section `s` in place. -/
def Store.setIn : Store → String → String → String → Store
  | [], _, _, _ => []
  | (s', sec) :: rest, s, k, v =>
    if s' = s then (s, Sec.set sec k v) :: rest else (s', sec) :: Store.setIn rest s k v

/-- Model of Python `str.split(sep)` for a one-character separator:
`"".split(".") = [""]`, separators at the ends produce empty fields. -/
def splitOnCharAux (sep : Char) : List Char → List Char → List String
  | [], acc => [String.mk acc.reverse]
  | c :: cs, acc =>
    if c = sep then String.mk acc.reverse :: splitOnCharAux sep cs []
    else splitOnCharAux sep cs (c :: acc)

/-- Embedding of `item.split(".")` of the source, specialised to one-character separators. -/
def pySplit (sep : Char) (s : String) : List String := splitOnCharAux sep s.toList []

/-- Embedding of `ConfigurationParser.__getitem__` and `MetadataParser.__getitem__`
(identical method bodies in src/pyspm/config.py lines 59-66 and
src/pyspm/metadata.py lines 51-58): split the key on `"."`, raise
`ValueError` when `parts[0]` is not a section or `parts[1]` not a key of it;
the `parts[1]` access itself raises `IndexError` when the split produced a
single part.  Components beyond `parts[1]` are ignored, as in the source. -/
def getitemParts : Store → List String → Except PyErr String
  | _, [] => .error .indexError
  | st, p0 :: rest =>
    match st.section? p0 with
    | none => .error .unknownKey
    | some sec =>
      match rest with
      | [] => .error .indexError
      | p1 :: _ =>
        match sec.get? p1 with
        | none => .error .unknownKey
        | some v => .ok v

def getitem (st : Store) (item : String) : Except PyErr String :=
  getitemParts st (pySplit '.' item)

/-- Embedding of `ConfigurationParser.__setitem__` / `MetadataParser.__setitem__`
(src/pyspm/config.py lines 68-81, src/pyspm/metadata.py lines 60-73): same
validation as `getitem`, then the mutation; the method then rewrites the
whole file, so the returned `Store` is both the memory and the disk state. -/
def setitemParts (value : String) : Store → List String → Except PyErr Store
  | _, [] => .error .indexError
  | st, p0 :: rest =>
    match st.section? p0 with
    | none => .error .unknownKey
    | some sec =>
      match rest with
      | [] => .error .indexError
      | p1 :: _ =>
        match sec.get? p1 with
        | none => .error .unknownKey
        | some _ => .ok (Store.setIn st p0 p1 value)

def setitem (st : Store) (item : String) (value : String) : Except PyErr Store :=
  setitemParts value st (pySplit '.' item)

/-- Embedding of `ConfigurationParser.valid_keys` (src/pyspm/config.py lines 22-29). -/
def ConfigurationParser.valid_keys : List String :=
  ["projects.location", "projects.external_data", "tools.git_path",
   "tools.use_git", "tools.git_ignore_data"]

/-- Embedding of `MetadataParser.valid_keys` (src/pyspm/metadata.py lines 19-31). -/
def MetadataParser.valid_keys : List String :=
  ["metadata.version", "project.title", "project.start_date",
   "project.end_date", "project.status", "project.description",
   "user.name", "user.email", "user.group", "user.collaborators"]

/-- The configuration file written by `ConfigurationParser._write_default`
(src/pyspm/config.py lines 115-143).  Note that it contains
`projects.template` and `metadata.version`, which are not in `valid_keys`. -/
def defaultConfigStore : Store :=
  [("metadata", [("version", "1")]),
   ("projects", [("location", ""), ("external_data", ""),
                 ("template", "<TO_BE_DESIGNED>")]),
   ("tools", [("git_path", ""), ("use_git", "True"), ("git_ignore_data", "True")])]

/-- The metadata file written by `MetadataParser._write_default`
(src/pyspm/metadata.py lines 122-153), including its curious `"True"`
defaults for the `user` fields. -/
def defaultMetadataStore : Store :=
  [("metadata", [("version", "1")]),
   ("project", [("title", ""), ("start_date", ""), ("end_date", ""),
                ("status", ""), ("description", "")]),
   ("user", [("name", ""), ("email", "True"), ("group", "True"),
             ("collaborators", "True")])]

/-! ### Store lemmas -/

theorem Sec.get?_set_self (sec : Sec) (k v : String) :
    (Sec.set sec k v).get? k = some v := by
  induction sec with
  | nil => simp [Sec.set, Sec.get?]
  | cons p rest ih =>
    obtain ⟨k', v'⟩ := p
    by_cases h : k' = k
    · simp [Sec.set, h, Sec.get?]
    · simp [Sec.set, h, Sec.get?, ih]

theorem Sec.get?_set_other (sec : Sec) {k k' : String} (v : String) (h : k' ≠ k) :
    (Sec.set sec k v).get? k' = sec.get? k' := by
  induction sec with
  | nil => simp [Sec.set, Sec.get?, Ne.symm h]
  | cons p rest ih =>
    obtain ⟨k0, v0⟩ := p
    by_cases h0 : k0 = k
    · subst h0
      simp [Sec.set, Sec.get?, Ne.symm h]
    · by_cases h1 : k0 = k'
      · subst h1
        simp [Sec.set, h0, Sec.get?]
      · simp [Sec.set, h0, Sec.get?, h1, ih]

theorem Store.section?_setIn_self (st : Store) {s : String} (k v : String) {sec : Sec}
    (h : st.section? s = some sec) :
    (Store.setIn st s k v).section? s = some (Sec.set sec k v) := by
  induction st with
  | nil => simp [Store.section?] at h
  | cons p rest ih =>
    obtain ⟨s0, sec0⟩ := p
    by_cases h0 : s0 = s
    · subst h0
      simp [Store.section?] at h
      subst h
      simp [Store.setIn, Store.section?]
    · simp [Store.section?, h0] at h
      simp [Store.setIn, h0, Store.section?, ih h]

theorem Store.section?_setIn_other (st : Store) {s s' : String} (k v : String)
    (h : s' ≠ s) :
    (Store.setIn st s k v).section? s' = st.section? s' := by
  induction st with
  | nil => simp [Store.setIn, Store.section?]
  | cons p rest ih =>
    obtain ⟨s0, sec0⟩ := p
    by_cases h0 : s0 = s
    · subst h0
      simp [Store.setIn, Store.section?, Ne.symm h]
    · by_cases h1 : s0 = s'
      · subst h1
        simp [Store.setIn, h0, Store.section?]
      · simp [Store.setIn, h0, Store.section?, h1, ih]

/-! ### The global id counter (`GlobalMetadataManager`, src/pyspm/config.py) -/

/-- Model of `f.readline()` followed by `.strip()`: the first line. -/
def firstLineL (cs : List Char) : List Char := cs.takeWhile (fun c => c != '\n')

/-- The parsing part of `GlobalMetadataManager.get_last_id` (src lines
157-165): read the first line, strip it, demand the `last_id=` prefix and an
integer after it, else `ValueError("The file ... is corrupted!")`. -/
def readCounter (content : List Char) : Except PyErr Int :=
  if (pyStripL (firstLineL content)).take 8 = "last_id=".toList then
    match pyIntL ((pyStripL (firstLineL content)).drop 8) with
    | some n => .ok n
    | none => .error .corruptFormat
  else .error .corruptFormat

/-- Embedding of `GlobalMetadataManager.get_last_id` (src/pyspm/config.py lines 149-165).
The state is the contents of `<projects_root>/.projects` (`none` when the
file does not exist).  A missing file is first created with `last_id=-1`;
the returned pair is (parsed id, file contents afterwards). -/
def get_last_id (f : Option (List Char)) : Except PyErr (Int × Option (List Char)) :=
  (readCounter (f.getD ("last_id=-1".toList))).map
    (fun n => (n, some (f.getD ("last_id=-1".toList))))

/-- Embedding of `GlobalMetadataManager.update_last_id` (src/pyspm/config.py lines
167-176): re-read the last id, add one, overwrite the file with it. -/
def update_last_id (f : Option (List Char)) : Except PyErr (Option (List Char)) :=
  (get_last_id f).map (fun p => some ("last_id=".toList ++ intStrL (p.1 + 1)))

/-! ### Characters of a serialised counter line -/

theorem intStrL_mem {i : Int} {c : Char} (h : c ∈ intStrL i) :
    c = '-' ∨ c ∈ ['0', '1', '2', '3', '4', '5', '6', '7', '8', '9'] := by
  unfold intStrL at h
  split at h
  · rcases List.mem_cons.mp h with h' | h'
    · exact Or.inl h'
    · exact Or.inr (natDigs_mem_digits h')
  · exact Or.inr (natDigs_mem_digits h)

theorem counterLine_char_ok {i : Int} {c : Char}
    (h : c ∈ "last_id=".toList ++ intStrL i) :
    (c != '\n') = true ∧ isPySpace c = false := by
  rcases List.mem_append.mp h with h' | h'
  · have hc : c ∈ ['l', 'a', 's', 't', '_', 'i', 'd', '='] := h'
    fin_cases hc <;> exact ⟨by decide, by decide⟩
  · rcases intStrL_mem h' with rfl | hd
    · exact ⟨by decide, by decide⟩
    · fin_cases hd <;> exact ⟨by decide, by decide⟩

theorem takeWhile_eq_self_of {p : Char → Bool} :
    ∀ (l : List Char), (∀ c ∈ l, p c = true) → l.takeWhile p = l := by
  intro l h
  induction l with
  | nil => rfl
  | cons a l' ih =>
    simp only [List.takeWhile_cons, h a (List.mem_cons_self a l'), if_true]
    rw [ih (fun c hc => h c (List.mem_cons_of_mem a hc))]

theorem readCounter_counterLine (m : Int) :
    readCounter ("last_id=".toList ++ intStrL m) = .ok m := by
  unfold readCounter firstLineL
  rw [takeWhile_eq_self_of _ (fun c hc => (counterLine_char_ok hc).1)]
  rw [pyStripL_eq_self (fun c hc => (counterLine_char_ok hc).2)]
  have hlen : (8 : Nat) = "last_id=".toList.length := by decide
  rw [hlen, List.take_left, List.drop_left, if_pos rfl, pyIntL_intStrL]

/-! ### Year and month folder filters (`ProjectManager`, src/pyspm/project.py) -/

/-- Loop body of `ProjectManager._get_year_folders` (src lines 455-471):
`int(subfolder.name)` raising `ValueError` on garbage, plus a deliberate
`raise ValueError` for years `< 2021`; both are caught and the folder is
skipped. -/
def yearAccepts (name : String) : Bool :=
  match pyInt name with
  | none => false
  | some year => if year < 2021 then false else true

/-- Loop body of `ProjectManager._get_month_folders` (src lines 473-491):
same pattern with the guard `month < 0 or month > 12`. -/
def monthAccepts (name : String) : Bool :=
  match pyInt name with
  | none => false
  | some month => if month < 0 ∨ month > 12 then false else true

/-- Embedding of `ProjectManager._get_year_folders` over the names of the children of the
projects folder. -/
def ProjectManager._get_year_folders (subfolders : List String) : List String :=
  subfolders.filter yearAccepts

/-- Embedding of `ProjectManager._get_month_folders` over the names of the children of a
year folder. -/
def ProjectManager._get_month_folders (subfolders : List String) : List String :=
  subfolders.filter monthAccepts

/-! ### Filesystem model

Paths are component lists (named `FPath` to avoid clashing with Mathlib).
A filesystem holds directories, parsed key-value files (the `*.ini` files,
kept as their parsed `Store` since the INI syntax itself is out of scope),
and plain text files. -/

abbrev FPath := List String

/-- Association lookup on paths. -/
def getAssoc {α : Type} : List (FPath × α) → FPath → Option α
  | [], _ => none
  | (q, a) :: rest, p => if q = p then some a else getAssoc rest p

/-- Association update-or-insert on paths. -/
def setAssoc {α : Type} : List (FPath × α) → FPath → α → List (FPath × α)
  | [], p, a => [(p, a)]
  | (q, b) :: rest, p, a =>
    if q = p then (p, a) :: rest else (q, b) :: setAssoc rest p a

/-- Membership of a path in a directory list. -/
def pathMem : List FPath → FPath → Bool
  | [], _ => false
  | q :: rest, p => if q = p then true else pathMem rest p

structure FS where
  dirs : List FPath
  inis : List (FPath × Store)
  texts : List (FPath × String)
  deriving DecidableEq, Repr

def FS.getIni (fs : FS) (p : FPath) : Option Store := getAssoc fs.inis p

def FS.setIni (fs : FS) (p : FPath) (st : Store) : FS :=
  { fs with inis := setAssoc fs.inis p st }

def FS.getText (fs : FS) (p : FPath) : Option String := getAssoc fs.texts p

def FS.setText (fs : FS) (p : FPath) (s : String) : FS :=
  { fs with texts := setAssoc fs.texts p s }

/-- Embedding of `os.path.isdir`. -/
def FS.isDir (fs : FS) (p : FPath) : Bool := pathMem fs.dirs p

/-- Embedding of `Path(...).exists()`: any node at the path. -/
def FS.pathExists (fs : FS) (p : FPath) : Bool :=
  pathMem fs.dirs p || (fs.getIni p).isSome || (fs.getText p).isSome

/-- All non-empty prefixes of a path: the directories that
`mkdir(parents=True)` / `os.makedirs` guarantees to exist afterwards. -/
def pathPrefixes (p : FPath) : List FPath :=
  (List.range p.length).map (fun i => p.take (i + 1))

/-- Embedding of `path.mkdir(parents=True, exist_ok=True)`. -/
def FS.mkdirp (fs : FS) (p : FPath) : FS :=
  { fs with dirs := pathPrefixes p ++ fs.dirs }

/-- One node name directly below `p`, if `q` is such a node. -/
def childOf (p q : FPath) : Option String :=
  if q.take p.length = p then
    match q.drop p.length with
    | [n] => some n
    | _ => none
  else none

/-- Immediate child names of a directory (`Path(...).iterdir()`); the
enumeration order is irrelevant to every property proved below. -/
def FS.childNames (fs : FS) (p : FPath) : List String :=
  fs.dirs.filterMap (childOf p)
    ++ (fs.inis.map Prod.fst).filterMap (childOf p)
    ++ (fs.texts.map Prod.fst).filterMap (childOf p)

/-! ### `Project` (src/pyspm/project.py) -/

/-- Python `s.replace(" ", "_")` on the project folder name. -/
def replaceSpaces (s : String) : String :=
  String.mk (s.toList.map (fun c => if c = ' ' then '_' else c))

/-- Zero-padding for the `%d`, `%m`, `%Y` fields. -/
def zpad (w : Nat) (cs : List Char) : List Char :=
  List.replicate (w - cs.length) '0' ++ cs

/-- Embedding of `date.strftime("%d/%m/%Y")`. -/
def fmtDate (day month year : Nat) : String :=
  String.mk (zpad 2 (natDigs day) ++ '/' :: zpad 2 (natDigs month)
    ++ '/' :: zpad 4 (natDigs year))

/-- The fields of a `Project` instance after `Project.__init__`
(src/pyspm/project.py lines 14-122): the creation date fields stand for
`date.today()`, and `git_active` for `use_git` combined with a resolved git
executable (`git init` and the other subprocess calls are out of scope;
`.gitignore` is the only filesystem effect of `_init_git_repo` modelled).
`extern_data_dir` is the computed `EXTERN_DATA_DIR/YEAR/MONTH/project_dir`
path when an external data directory was configured. -/
structure Project where
  parent_dir : FPath
  project_dir : String
  project_title : String
  user_name : String
  user_email : String
  user_group : String
  project_short_descr : String
  year : Nat
  month : Nat
  day : Nat
  git_active : Bool
  extern_data_dir : Option FPath
  deriving Repr

/-- Embedding of `PARENT_DIR/YEAR/MONTH/project_dir` with `YEAR = str(year)`,
`MONTH = str(month)` (no zero padding) and spaces replaced in the folder
name, as computed in `Project.__init__`. -/
def Project.rootDir (p : Project) : FPath :=
  p.parent_dir ++ [natStr p.year, natStr p.month, replaceSpaces p.project_dir]

/-- The fixed folders created by `Project._create_folder_structure`
(src lines 208-224). -/
def Project.folderList (p : Project) : List FPath :=
  [p.rootDir,
   p.rootDir ++ ["metadata"],
   p.rootDir ++ ["data"],
   p.rootDir ++ ["results"],
   p.rootDir ++ ["code", "extern"],
   p.rootDir ++ ["code", "matlab"],
   p.rootDir ++ ["code", "python"],
   p.rootDir ++ ["code", "macros"],
   p.rootDir ++ ["code", "notebooks"],
   p.rootDir ++ ["code", "ilastik"],
   p.rootDir ++ ["references"]]

def Project._create_folder_structure (fs : FS) (p : Project) : FS :=
  let fs1 := p.folderList.foldl FS.mkdirp fs
  match p.extern_data_dir with
  | some d => fs1.mkdirp d
  | none => fs1

/-- Embedding of `MetadataParser.__init__` (src/pyspm/metadata.py lines 9-49): load
`<project>/metadata/metadata.ini`, writing the default file first (and
creating the `metadata` folder) when it is absent. -/
def MetadataParser.load (fs : FS) (project_folder : FPath) : Store × FS :=
  match fs.getIni (project_folder ++ ["metadata", "metadata.ini"]) with
  | some st => (st, fs)
  | none =>
    (defaultMetadataStore,
     (fs.mkdirp (project_folder ++ ["metadata"])).setIni
       (project_folder ++ ["metadata", "metadata.ini"]) defaultMetadataStore)

/-- Embedding of `Project._write_metadata_to_file` (src lines 338-351).  Every
`__setitem__` rewrites the whole file, so the on-disk content after the call
is the store after the last assignment (the final `write()` repeats it). -/
def Project._write_metadata_to_file (fs : FS) (p : Project) : Except PyErr FS :=
  let load := MetadataParser.load fs (Project.rootDir p)
  (setitem load.1 "project.title" p.project_title).bind fun st =>
  (setitem st "project.start_date" (fmtDate p.day p.month p.year)).bind fun st =>
  (setitem st "project.end_date" "").bind fun st =>
  (setitem st "project.status" "new").bind fun st =>
  (setitem st "user.name" p.user_name).bind fun st =>
  (setitem st "user.email" p.user_email).bind fun st =>
  (setitem st "user.group" p.user_group).bind fun st =>
  (setitem st "user.collaborators" "").bind fun st =>
  .ok (load.2.setIni (Project.rootDir p ++ ["metadata", "metadata.ini"]) st)

/-- Embedding of `Project._write_description_to_file` (src lines 353-364): written only
when absent, never overwritten. -/
def Project._write_description_to_file (fs : FS) (p : Project) : FS :=
  if (fs.getText (Project.rootDir p ++ ["metadata", "description.md"])).isSome then fs
  else
    fs.setText (Project.rootDir p ++ ["metadata", "description.md"])
      ("# Project description\n" ++ p.project_short_descr ++ "\n")

/-- The `.gitignore` contents written by `_init_git_repo` (src lines
260-271; only the first `write` ends with a newline). -/
def gitignoreText : String :=
  "/data/\n.ipynb_checkpoints/__pycache__/.pytest_cache/iaf.egg-info/.vscode/.idea/"

/-- Filesystem effect of `Project._init_git_repo` (src lines 251-282): when
git is in use and resolved, add `.gitignore` if absent (the subprocess
`git init/add/commit` calls are external collaborators, out of scope). -/
def Project._init_git_repo (fs : FS) (p : Project) : FS :=
  if p.git_active then
    if (fs.getText (Project.rootDir p ++ [".gitignore"])).isSome then fs
    else fs.setText (Project.rootDir p ++ [".gitignore"]) gitignoreText
  else fs

/-- Embedding of `Project.init` (src/pyspm/project.py lines 129-168): create the parent
if missing, refuse (returning `False`) when the project folder already
exists, otherwise create the tree, the metadata file and the description
file.  The successful branch falls off the end of the Python function and
returns `None`, modelled as `none` (`_set_extern_git_projects` only runs
subprocesses, no filesystem effect is modelled). -/
def Project.initAfterParent (fs1 : FS) (p : Project) : Except PyErr (Option Bool × FS) :=
  if FS.pathExists fs1 (Project.rootDir p) then .ok (some false, fs1)
  else
    match Project._write_metadata_to_file (Project._create_folder_structure fs1 p) p with
    | .error e => .error e
    | .ok fs2 =>
      .ok (none, Project._init_git_repo (Project._write_description_to_file fs2 p) p)

def Project.init (fs0 : FS) (p : Project) : Except PyErr (Option Bool × FS) :=
  Project.initAfterParent
    (if FS.isDir fs0 p.parent_dir then fs0 else FS.mkdirp fs0 p.parent_dir) p

/-! ### The CLI `project create` flow (src/pyspm/cli_project.py lines 23-133) -/

/-- Location of the counter file `<projects_root>/.projects`. -/
def counterPath (root : FPath) : FPath := root ++ [".projects"]

/-- Python `f"{n:04}"`: zero-pad to total width 4, sign first. -/
def format04 (n : Int) : String :=
  let sign : List Char := if n < 0 then ['-'] else []
  let ds := natDigs n.natAbs
  String.mk (sign ++ List.replicate (4 - (sign.length + ds.length)) '0' ++ ds)

/-- The `project create` command: read the last id from the counter file
(creating it at `-1` when missing), build `P_{last+1:04}`, run
`Project.init`, then `update_last_id`.  Configuration lookups and the
interactive prompts of the CLI are collapsed into the explicit arguments. -/
def cliCreateProject (fs0 : FS) (root : FPath) (year month day : Nat)
    (title uname uemail ugroup descr : String) (git_active : Bool)
    (extern_data_dir : Option FPath) : Except PyErr FS :=
  match get_last_id ((FS.getText fs0 (counterPath root)).map String.toList) with
  | .error e => .error e
  | .ok (last, cf) =>
    let fs1 := match cf with
      | some cs => FS.setText fs0 (counterPath root) (String.mk cs)
      | none => fs0
    let prj : Project :=
      { parent_dir := root, project_dir := "P_" ++ format04 (last + 1),
        project_title := title, user_name := uname, user_email := uemail,
        user_group := ugroup, project_short_descr := descr,
        year := year, month := month, day := day,
        git_active := git_active, extern_data_dir := extern_data_dir }
    match Project.init fs1 prj with
    | .error e => .error e
    | .ok (_, fs2) =>
      match update_last_id ((FS.getText fs2 (counterPath root)).map String.toList) with
      | .error e => .error e
      | .ok cf2 =>
        .ok (match cf2 with
             | some cs => FS.setText fs2 (counterPath root) (String.mk cs)
             | none => fs2)

/-! ### `ProjectManager.get_projects` (src/pyspm/project.py lines 370-430) -/

/-- Python `needle in hay` substring containment. -/
def pyInStr (needle hay : String) : Bool :=
  hay.toList.tails.any (fun t => needle.toList.isPrefixOf t)

/-- The `metadata_parser.read()` call of `get_projects` (src line 401):
`MetadataParser` (src/pyspm/metadata.py) defines no method named `read`, so
the call raises `AttributeError` unconditionally. -/
def metadataParserRead : Except PyErr Store := .error .attributeError

/-- The `try` body of `get_projects` for one candidate folder: construct the
parser, call the (missing) `read` method, then build the display row.  Note
the source fills both the `User e-mail` and `Group` columns from
`metadata["user.email"]`. -/
def candidateRow (yname mname cand : String) : Except PyErr (List String) :=
  metadataParserRead.bind fun md =>
  (getitem md "project.title").bind fun title =>
  (getitem md "user.name").bind fun uname =>
  (getitem md "user.email").bind fun uemail =>
  (getitem md "user.email").bind fun ugroup =>
  (getitem md "project.status").bind fun status =>
  .ok [yname, mname, cand, title, uname, uemail, ugroup, status]

def get_projects_headers : List String :=
  ["Year", "Month", "ID", "Title", "User name", "User e-mail", "Group", "Status"]

/-- Embedding of `ProjectManager.get_projects`: walk year folders, month folders and
candidate project folders, keep candidates matching the optional id
substring filter that have a `metadata/.metadata.ini` file, and collect a
row per candidate whose metadata loads; a candidate whose `try` block raises
is printed and skipped.  (`MetadataParser(...)`'s constructor side effect of
writing a default `metadata.ini` cannot change the returned list — every
candidate dies at the `read()` call — and is not modelled.) -/
def ProjectManager.get_projects_rows (fs : FS) (projects_folder : FPath)
    (project_id : Option String) : List (List String) :=
  (ProjectManager._get_year_folders (FS.childNames fs projects_folder)).flatMap fun yname =>
    (ProjectManager._get_month_folders
        (FS.childNames fs (projects_folder ++ [yname]))).flatMap fun mname =>
      (FS.childNames fs (projects_folder ++ [yname, mname])).flatMap fun cand =>
        if (match project_id with
            | some pid => pyInStr pid cand
            | none => true) then
          if (FS.getIni fs (projects_folder
              ++ [yname, mname, cand, "metadata", ".metadata.ini"])).isSome then
            match candidateRow yname mname cand with
            | .ok row => [row]
            | .error _ => []
          else []
        else []

def ProjectManager.get_projects (fs : FS) (projects_folder : FPath)
    (project_id : Option String) : List (List String) × List String :=
  (ProjectManager.get_projects_rows fs projects_folder project_id, get_projects_headers)

/-! ### Object identity: the `Singleton` metaclass (src/pysspm/lib/util.py)

Python object identity is modelled by an allocation heap: every plain
construction returns a fresh reference, while `Singleton.__call__` keeps a
per-class table (`_instances`, keyed by the class only — constructor
arguments are ignored) and returns the stored reference when present. -/

structure Heap where
  nextRef : Nat
  singletonInstances : List (String × Nat)
  deriving DecidableEq, Repr

def assocNat : List (String × Nat) → String → Option Nat
  | [], _ => none
  | (k, r) :: rest, c => if k = c then some r else assocNat rest c

/-- Embedding of `Singleton.__call__` (src/pysspm/lib/util.py lines 4-12). -/
def Singleton.call (h : Heap) (cls : String) : Nat × Heap :=
  match assocNat h.singletonInstances cls with
  | some r => (r, h)
  | none =>
    (h.nextRef,
     { nextRef := h.nextRef + 1,
       singletonInstances := (cls, h.nextRef) :: h.singletonInstances })

/-- Constructing `ConfigurationParser()` (src/pyspm/config.py line 9:
`class ConfigurationParser(object, metaclass=Singleton)`); the class has no
constructor arguments, its file path is fixed. -/
def newConfigurationParser (h : Heap) : Nat × Heap :=
  Singleton.call h "ConfigurationParser"

/-- Constructing `MetadataParser(project_folder)` (src/pyspm/metadata.py
line 6: `class MetadataParser:` — despite its docstring, no
`metaclass=Singleton`): a plain class, every call allocates a fresh
object. -/
def newMetadataParser (h : Heap) (_project_folder : FPath) : Nat × Heap :=
  (h.nextRef, { h with nextRef := h.nextRef + 1 })

/-! ### Operations modelled from the spec (implementation not under src/) -/

/-- The project status enumeration `ProjectStatus`
(src/pysspm/lib/project_status.py): the `StrEnum` values in declaration
order. -/
def ProjectStatus.values : List String :=
  ["new", "feedback", "in progress", "waiting for data", "on hold",
   "superseded", "dropped", "completed"]

/-- Modelled from the spec: the status-validating metadata setter of
`pysspm/lib/metadata.py`, which is missing from src (only the
`ProjectStatus` declaration, the tests exercising the validation in
tests/test_pysspm.py, and CLI callers are present).  Spec section 4.4:
"Status values are validated against the enumerated set; setting an
unrecognized status fails with `InvalidEnum` and leaves the stored value
unchanged."  Other keys behave as the schema-checked `setitem`. -/
def MetadataParser.setitemValidated (st : Store) (item value : String) :
    Except PyErr Store :=
  if item = "project.status" ∧ value ∉ ProjectStatus.values then .error .invalidEnum
  else setitem st item value

/-- State transformer view of `setitemValidated`: the resulting store plus
the reported error, so that "no mutation on failure" is explicit. -/
def applySetValidated (st : Store) (item value : String) : Store × Option PyErr :=
  match MetadataParser.setitemValidated st item value with
  | .ok st' => (st', none)
  | .error e => (st, some e)

/-- Most recent modification timestamp among a project's files. -/
def latestMtime (mtimes : List Nat) : Nat := mtimes.foldl Nat.max 0

/-- Modelled from the spec: `ProjectManager.close(path, mode, finalStatus)`
of `pysspm/lib/project.py`, missing from src (only its CLI caller
`close_project` in src/pyspm/cli_project.py — which performs the same
`mode in ["now", "latest"]` guard before any mutation — and its tests are
present).  Spec section 4.5: mode `"now"` sets `end_date` to the current
date, `"latest"` to the most recent modification timestamp among the
project's files (rendered by `fmt`), any other mode fails with
`InvalidArgument`; the final status is validated against the enumeration
before any mutation. -/
def ProjectManager.close (md : Store) (today : String) (fmt : Nat → String)
    (mtimes : List Nat) (mode : String) (finalStatus : String) :
    Except PyErr Store :=
  if mode = "now" ∨ mode = "latest" then
    if finalStatus ∈ ProjectStatus.values then
      match setitem md "project.end_date"
          (if mode = "now" then today else fmt (latestMtime mtimes)) with
      | .error e => .error e
      | .ok st => setitem st "project.status" finalStatus
    else .error .invalidEnum
  else .error .invalidArgument

/-! ### Helper lemmas about the embedded operations -/

theorem setitem_found {st : Store} {s k : String} {tail : List String} {sec : Sec}
    (item : String)
    (hsplit : pySplit '.' item = s :: k :: tail) (hsec : Store.section? st s = some sec)
    (hk : (Sec.get? sec k).isSome = true) (v : String) :
    setitem st item v = .ok (Store.setIn st s k v) := by
  unfold setitem
  rw [hsplit]
  simp only [setitemParts]
  rw [hsec]
  obtain ⟨w, hw⟩ := Option.isSome_iff_exists.mp hk
  simp [hw]

theorem getitem_found {st : Store} {s k v : String} {tail : List String} {sec : Sec}
    (item : String)
    (hsplit : pySplit '.' item = s :: k :: tail) (hsec : Store.section? st s = some sec)
    (hval : Sec.get? sec k = some v) :
    getitem st item = .ok v := by
  unfold getitem
  rw [hsplit]
  simp only [getitemParts]
  rw [hsec]
  simp [hval]

theorem flatMap_eq_nil_of {α β : Type} (l : List α) (f : α → List β)
    (h : ∀ a, f a = []) : l.flatMap f = [] := by
  induction l with
  | nil => rfl
  | cons a l' ih => simp [List.flatMap_cons, h a, ih]

theorem get_projects_rows_nil (fs : FS) (root : FPath) (pid : Option String) :
    ProjectManager.get_projects_rows fs root pid = [] := by
  unfold ProjectManager.get_projects_rows
  apply flatMap_eq_nil_of
  intro yname
  apply flatMap_eq_nil_of
  intro mname
  apply flatMap_eq_nil_of
  intro cand
  have hrow : candidateRow yname mname cand = .error .attributeError := rfl
  split_ifs <;> simp [hrow]

theorem pathMem_append_right (l1 l2 : List FPath) (p : FPath)
    (h : pathMem l2 p = true) : pathMem (l1 ++ l2) p = true := by
  induction l1 with
  | nil => exact h
  | cons q rest ih =>
    simp only [List.cons_append, pathMem]
    split_ifs with hq
    · rfl
    · exact ih

theorem FS.dirs_mkdirp (fs : FS) (q : FPath) :
    (fs.mkdirp q).dirs = pathPrefixes q ++ fs.dirs := rfl

theorem FS.getIni_mkdirp (fs : FS) (q p : FPath) :
    (fs.mkdirp q).getIni p = fs.getIni p := rfl

theorem FS.getText_mkdirp (fs : FS) (q p : FPath) :
    (fs.mkdirp q).getText p = fs.getText p := rfl

theorem FS.pathExists_mkdirp_mono (fs : FS) (q p : FPath)
    (h : fs.pathExists p = true) : (fs.mkdirp q).pathExists p = true := by
  unfold FS.pathExists at h ⊢
  rw [FS.dirs_mkdirp, FS.getIni_mkdirp, FS.getText_mkdirp]
  simp only [Bool.or_eq_true] at h ⊢
  rcases h with (h | h) | h
  · exact Or.inl (Or.inl (pathMem_append_right _ _ _ h))
  · exact Or.inl (Or.inr h)
  · exact Or.inr h

theorem Project.initAfterParent_exists {fs1 : FS} {p : Project}
    (h : FS.pathExists fs1 (Project.rootDir p) = true) :
    Project.initAfterParent fs1 p = .ok (some false, fs1) := by
  unfold Project.initAfterParent
  rw [if_pos h]

/-! ### Claim theorems -/

/-- C1 (code_bug): after creating "Project A" (user "John Doe",
"john.doe@example.com", group "Group 1") under an empty projects root, the
scan returns no record at all, not one: `get_projects` looks for
`metadata/.metadata.ini` while creation writes `metadata/metadata.ini`, and
its `metadata_parser.read()` call raises `AttributeError` for every
candidate — even though the created metadata file does hold
`status = "new"` and an empty `end_date`.  The first conjunct shows the
scan's row list is `[]` for every filesystem whatsoever. -/
theorem c1_create_then_scan :
    (∀ (fs : FS) (root : FPath) (pid : Option String),
        (ProjectManager.get_projects fs root pid).1 = []) ∧
    (∃ fs1,
       cliCreateProject ⟨[["projects"]], [], []⟩ ["projects"] 2024 5 15
           "Project A" "John Doe" "john.doe@example.com" "Group 1" "" false none
         = .ok fs1 ∧
       (FS.getIni fs1 ["projects", "2024", "5", "P_0000", "metadata", "metadata.ini"]).map
           (fun st => (getitem st "project.status", getitem st "project.end_date"))
         = some (.ok "new", .ok "") ∧
       (ProjectManager.get_projects fs1 ["projects"] none).1 = []) :=
  ⟨fun fs root pid => get_projects_rows_nil fs root pid, ⟨_, rfl, rfl, rfl⟩⟩

/-- C2 (corrected): repeated `get_last_id` calls without an intervening
`update_last_id` return the same value, `update_last_id` followed by
`get_last_id` returns exactly one more, and the query leaves an existing
counter file untouched — but the query returns the stored `last_id` itself
(the caller in `cli_project.create` adds 1), not `last_id + 1`. -/
theorem c2_next_id_query_behaviour :
    (∀ f n f', get_last_id f = .ok (n, f') → get_last_id f' = .ok (n, f')) ∧
    (∀ f n f', get_last_id f = .ok (n, f') →
       update_last_id f = .ok (some ("last_id=".toList ++ intStrL (n + 1))) ∧
       get_last_id (some ("last_id=".toList ++ intStrL (n + 1)))
         = .ok (n + 1, some ("last_id=".toList ++ intStrL (n + 1)))) ∧
    (∀ m : Int, get_last_id (some ("last_id=".toList ++ intStrL m))
       = .ok (m, some ("last_id=".toList ++ intStrL m))) ∧
    (∀ c n f', get_last_id (some c) = .ok (n, f') → f' = some c) := by
  have hdec : ∀ (f : Option (List Char)) (n : Int) (f' : Option (List Char)),
      get_last_id f = .ok (n, f') →
      readCounter (f.getD ("last_id=-1".toList)) = .ok n
        ∧ f' = some (f.getD ("last_id=-1".toList)) := by
    intro f n f' h
    unfold get_last_id at h
    cases hr : readCounter (f.getD ("last_id=-1".toList)) with
    | error e => rw [hr] at h; exact absurd h (by simp [Except.map])
    | ok m =>
      rw [hr] at h
      simp only [Except.map, Except.ok.injEq, Prod.mk.injEq] at h
      exact ⟨by rw [h.1], h.2.symm⟩
  have hiii : ∀ m : Int, get_last_id (some ("last_id=".toList ++ intStrL m))
      = .ok (m, some ("last_id=".toList ++ intStrL m)) := by
    intro m
    unfold get_last_id
    simp only [Option.getD_some]
    rw [readCounter_counterLine]
    rfl
  refine ⟨?_, ?_, hiii, ?_⟩
  · intro f n f' h
    obtain ⟨hr, hf'⟩ := hdec f n f' h
    subst hf'
    unfold get_last_id
    simp only [Option.getD_some]
    rw [hr]
    rfl
  · intro f n f' h
    refine ⟨?_, hiii (n + 1)⟩
    unfold update_last_id
    rw [h]
    rfl
  · intro c n f' h
    exact (hdec (some c) n f' h).2

/-- C2 counterexample: with the counter file holding `last_id=0`, the query
returns the stored value `0`, not `last_id + 1 = 1` as the claim states. -/
theorem c2_claim_counterexample :
    get_last_id (some ("last_id=0".toList)) = .ok (0, some ("last_id=0".toList)) ∧
    (0 : Int) ≠ 0 + 1 :=
  ⟨rfl, by decide⟩

/-- C2 witness: the amended behaviour at the concrete file `last_id=4`. -/
theorem c2_next_id_query_behaviour_witness :
    get_last_id (some ("last_id=4".toList)) = .ok (4, some ("last_id=4".toList)) ∧
    update_last_id (some ("last_id=4".toList)) = .ok (some ("last_id=5".toList)) ∧
    get_last_id (some ("last_id=5".toList)) = .ok (5, some ("last_id=5".toList)) := by
  refine ⟨rfl, ?_, ?_⟩
  · exact (c2_next_id_query_behaviour.2.1 (some ("last_id=4".toList)) 4
      (some ("last_id=4".toList)) rfl).1
  · exact (c2_next_id_query_behaviour.2.1 (some ("last_id=4".toList)) 4
      (some ("last_id=4".toList)) rfl).2

/-- C3 (corrected): `get`/`set` reject with `ValueError` (`UnknownKey`)
exactly the `(section, key)` pairs absent from the *loaded file*, never
returning or writing a default for them; the declared `valid_keys` list is
not what is checked (see the counterexample: `projects.template` is outside
`valid_keys` yet accepted). -/
theorem c3_unknown_pair_rejected (st : Store) (item v p0 p1 : String)
    (rest : List String) (hsplit : pySplit '.' item = p0 :: p1 :: rest)
    (habsent : Store.section? st p0 = none ∨
       ∃ sec, Store.section? st p0 = some sec ∧ Sec.get? sec p1 = none) :
    getitem st item = .error .unknownKey ∧ setitem st item v = .error .unknownKey := by
  rcases habsent with hnone | ⟨sec, hsec, hk⟩
  · constructor
    · unfold getitem
      rw [hsplit]
      simp only [getitemParts]
      rw [hnone]
    · unfold setitem
      rw [hsplit]
      simp only [setitemParts]
      rw [hnone]
  · constructor
    · unfold getitem
      rw [hsplit]
      simp only [getitemParts]
      rw [hsec]
      simp [hk]
    · unfold setitem
      rw [hsplit]
      simp only [setitemParts]
      rw [hsec]
      simp [hk]

/-- C3 counterexample: `projects.template` names a pair outside the
configuration store's declared schema (`valid_keys`), yet `get` returns the
defaulted value and `set` succeeds instead of failing with `UnknownKey`. -/
theorem c3_claim_counterexample :
    "projects.template" ∉ ConfigurationParser.valid_keys ∧
    getitem defaultConfigStore "projects.template" = .ok "<TO_BE_DESIGNED>" ∧
    (setitem defaultConfigStore "projects.template" "42").isOk = true :=
  ⟨by decide, rfl, rfl⟩

/-- C3 witness: a pair absent from the loaded file is rejected on both
`get` and `set`. -/
theorem c3_unknown_pair_rejected_witness :
    pySplit '.' "projects.nonexistent" = ["projects", "nonexistent"] ∧
    getitem defaultConfigStore "projects.nonexistent" = .error .unknownKey ∧
    setitem defaultConfigStore "projects.nonexistent" "42" = .error .unknownKey := by
  refine ⟨rfl, ?_, ?_⟩
  · exact (c3_unknown_pair_rejected defaultConfigStore "projects.nonexistent" "42"
      "projects" "nonexistent" [] rfl
      (Or.inr ⟨[("location", ""), ("external_data", ""),
                ("template", "<TO_BE_DESIGNED>")], rfl, rfl⟩)).1
  · exact (c3_unknown_pair_rejected defaultConfigStore "projects.nonexistent" "42"
      "projects" "nonexistent" [] rfl
      (Or.inr ⟨[("location", ""), ("external_data", ""),
                ("template", "<TO_BE_DESIGNED>")], rfl, rfl⟩)).2

/-- C4 (spec-modelled): setting `project.status` to a string outside the
enumerated status set fails with `InvalidEnum` and leaves the store — and
hence the previously stored status — unchanged. -/
theorem c4_invalid_status_rejected (st : Store) (v : String)
    (h : v ∉ ProjectStatus.values) :
    applySetValidated st "project.status" v = (st, some .invalidEnum) := by
  unfold applySetValidated MetadataParser.setitemValidated
  rw [if_pos ⟨rfl, h⟩]

/-- C4 witness: the concrete invalid status from the repository's test. -/
theorem c4_invalid_status_rejected_witness :
    "invalid status" ∉ ProjectStatus.values ∧
    applySetValidated defaultMetadataStore "project.status" "invalid status"
      = (defaultMetadataStore, some .invalidEnum) :=
  ⟨by decide,
   c4_invalid_status_rejected defaultMetadataStore "invalid status" (by decide)⟩

/-- The year filter as a decided comparison: parse, then accept iff
`2021 ≤ y` (the `year < 2021` branch raises and is caught, skipping). -/
theorem yearAccepts_eq (name : String) :
    yearAccepts name = match pyInt name with
      | none => false
      | some y => decide (2021 ≤ y) := by
  unfold yearAccepts
  cases pyInt name with
  | none => rfl
  | some y =>
    show (if y < 2021 then false else true) = decide (2021 ≤ y)
    split_ifs with hy
    · have hn : ¬(2021 ≤ y) := by omega
      simp [hn]
    · have hp : (2021 ≤ y) := by omega
      simp [hp]

/-- The month filter as a decided comparison: the guard in the source is
`month < 0 or month > 12`, so acceptance is `0 ≤ m ∧ m ≤ 12`. -/
theorem monthAccepts_eq (name : String) :
    monthAccepts name = match pyInt name with
      | none => false
      | some m => decide (0 ≤ m ∧ m ≤ 12) := by
  unfold monthAccepts
  cases pyInt name with
  | none => rfl
  | some m =>
    show (if m < 0 ∨ m > 12 then false else true) = decide (0 ≤ m ∧ m ≤ 12)
    split_ifs with hm
    · have hn : ¬(0 ≤ m ∧ m ≤ 12) := by omega
      simp [hn]
    · have hp : (0 ≤ m ∧ m ≤ 12) := by omega
      simp [hp]

/-- C5 (code_bug): the year filter accepts exactly the names parsing as
integers `≥ 2021` (everything else silently skipped), as claimed; but the
month filter, whose guard is `month < 0 or month > 12`, accepts exactly the
integers in `[0, 12]` — so the folder name `"0"`, outside the claimed
`[1, 12]` range (and outside the range named by the code's own error
message), is accepted. -/
theorem c5_year_month_filters :
    (∀ name, yearAccepts name = true ↔ ∃ y, pyInt name = some y ∧ 2021 ≤ y) ∧
    (∀ name, monthAccepts name = true ↔ ∃ m, pyInt name = some m ∧ 0 ≤ m ∧ m ≤ 12) ∧
    monthAccepts "0" = true ∧ pyInt "0" = some 0 := by
  refine ⟨?_, ?_, by decide, by decide⟩
  · intro name
    rw [yearAccepts_eq]
    cases h : pyInt name with
    | none => simp
    | some y =>
      constructor
      · intro hacc
        exact ⟨y, rfl, of_decide_eq_true hacc⟩
      · rintro ⟨y', hy', hge⟩
        cases Option.some.inj hy'
        exact decide_eq_true hge
  · intro name
    rw [monthAccepts_eq]
    cases h : pyInt name with
    | none => simp
    | some m =>
      constructor
      · intro hacc
        obtain ⟨hlo, hhi⟩ := of_decide_eq_true hacc
        exact ⟨m, rfl, hlo, hhi⟩
      · rintro ⟨m', hm', hlo, hhi⟩
        cases Option.some.inj hm'
        exact decide_eq_true ⟨hlo, hhi⟩

/-- Both valid close modes set `project.end_date` (to `today` for `"now"`,
to the formatted latest modification time for `"latest"`) and succeed when
the final status is in the enumeration. -/
theorem close_valid_mode (md : Store) (today : String) (fmt : Nat → String)
    (mtimes : List Nat) (finalStatus : String) {psec : Sec}
    (hsec : Store.section? md "project" = some psec)
    (hend : (Sec.get? psec "end_date").isSome = true)
    (hstat : (Sec.get? psec "status").isSome = true)
    (hfs : finalStatus ∈ ProjectStatus.values)
    (mode : String) (hmode : mode = "now" ∨ mode = "latest") :
    ∃ st, ProjectManager.close md today fmt mtimes mode finalStatus = .ok st ∧
      getitem st "project.end_date"
        = .ok (if mode = "now" then today else fmt (latestMtime mtimes)) := by
  set d := (if mode = "now" then today else fmt (latestMtime mtimes)) with hd
  unfold ProjectManager.close
  rw [if_pos hmode, if_pos hfs]
  have hsplit1 : pySplit '.' "project.end_date" = ["project", "end_date"] := rfl
  have hsplit2 : pySplit '.' "project.status" = ["project", "status"] := rfl
  have h1 := setitem_found "project.end_date" hsplit1 hsec hend d
  have hsec1 := Store.section?_setIn_self md "end_date" d hsec
  have hstat1 : (Sec.get? (Sec.set psec "end_date" d) "status").isSome = true := by
    rw [Sec.get?_set_other psec d (by decide)]
    exact hstat
  have h2 := setitem_found "project.status" hsplit2 hsec1 hstat1 finalStatus
  refine ⟨Store.setIn (Store.setIn md "project" "end_date" d) "project" "status"
    finalStatus, ?_, ?_⟩
  · rw [h1]
    exact h2
  · exact getitem_found "project.end_date" hsplit1
      (Store.section?_setIn_self (Store.setIn md "project" "end_date" d) "status"
        finalStatus hsec1)
      (by rw [Sec.get?_set_other (Sec.set psec "end_date" d) finalStatus (by decide),
            Sec.get?_set_self])

/-- C6 (spec-modelled): `close` with mode `"now"` sets `end_date` to the
current date, with mode `"latest"` to the most recent modification
timestamp among the project's files, and with any other mode string fails
with `InvalidArgument`, performing no mutation (the error branch returns
before any `setitem`). -/
theorem c6_close_modes (md : Store) (today : String) (fmt : Nat → String)
    (mtimes : List Nat) (finalStatus : String) {psec : Sec}
    (hsec : Store.section? md "project" = some psec)
    (hend : (Sec.get? psec "end_date").isSome = true)
    (hstat : (Sec.get? psec "status").isSome = true)
    (hfs : finalStatus ∈ ProjectStatus.values) :
    (∃ st, ProjectManager.close md today fmt mtimes "now" finalStatus = .ok st ∧
       getitem st "project.end_date" = .ok today) ∧
    (∃ st, ProjectManager.close md today fmt mtimes "latest" finalStatus = .ok st ∧
       getitem st "project.end_date" = .ok (fmt (latestMtime mtimes))) ∧
    (∀ mode, mode ≠ "now" → mode ≠ "latest" →
       ProjectManager.close md today fmt mtimes mode finalStatus
         = .error .invalidArgument) := by
  refine ⟨?_, ?_, ?_⟩
  · exact close_valid_mode md today fmt mtimes finalStatus hsec hend hstat hfs
      "now" (Or.inl rfl)
  · exact close_valid_mode md today fmt mtimes finalStatus hsec hend hstat hfs
      "latest" (Or.inr rfl)
  · intro mode h1 h2
    unfold ProjectManager.close
    rw [if_neg (by rintro (h | h); exacts [h1 h, h2 h])]

/-- C6 witness: closing a freshly defaulted metadata store both ways, plus
the rejected mode `"someday"`. -/
theorem c6_close_modes_witness :
    (∃ st, ProjectManager.close defaultMetadataStore "15/05/2024" natStr [3, 7, 5]
        "now" "completed" = .ok st ∧
      getitem st "project.end_date" = .ok "15/05/2024") ∧
    (∃ st, ProjectManager.close defaultMetadataStore "15/05/2024" natStr [3, 7, 5]
        "latest" "dropped" = .ok st ∧
      getitem st "project.end_date" = .ok (natStr (latestMtime [3, 7, 5]))) ∧
    ProjectManager.close defaultMetadataStore "15/05/2024" natStr [3, 7, 5]
        "someday" "completed" = .error .invalidArgument := by
  have hsec : Store.section? defaultMetadataStore "project"
      = some [("title", ""), ("start_date", ""), ("end_date", ""),
              ("status", ""), ("description", "")] := rfl
  have hnow := c6_close_modes defaultMetadataStore "15/05/2024" natStr [3, 7, 5]
    "completed" hsec rfl rfl (by decide)
  have hlatest := c6_close_modes defaultMetadataStore "15/05/2024" natStr [3, 7, 5]
    "dropped" hsec rfl rfl (by decide)
  exact ⟨hnow.1, hlatest.2.1, hnow.2.2 "someday" (by decide) (by decide)⟩

/-- C7: when the target directory `root/year/month/P_NNNN` already exists,
`Project.init` reports the failure flag `False` and no file or directory
that existed before the call is modified or deleted — the only possible
filesystem change is the creation of the missing parent directory. -/
theorem c7_existing_target_untouched (fs : FS) (p : Project)
    (h : FS.pathExists fs (Project.rootDir p) = true) :
    ∃ fs', Project.init fs p = .ok (some false, fs') ∧
      fs'.inis = fs.inis ∧ fs'.texts = fs.texts ∧
      (∀ q, pathMem fs.dirs q = true → pathMem fs'.dirs q = true) := by
  unfold Project.init
  by_cases hdir : FS.isDir fs p.parent_dir = true
  · rw [if_pos hdir]
    exact ⟨fs, Project.initAfterParent_exists h, rfl, rfl, fun q hq => hq⟩
  · rw [if_neg hdir]
    refine ⟨FS.mkdirp fs p.parent_dir,
      Project.initAfterParent_exists (FS.pathExists_mkdirp_mono fs _ _ h),
      rfl, rfl, ?_⟩
    intro q hq
    rw [FS.dirs_mkdirp]
    exact pathMem_append_right _ _ _ hq

/-- C7 witness: a filesystem already holding `projects/2024/5/P_0000`. -/
theorem c7_existing_target_untouched_witness :
    FS.pathExists
      ⟨[["projects"], ["projects", "2024"], ["projects", "2024", "5"],
        ["projects", "2024", "5", "P_0000"]], [], []⟩
      (Project.rootDir ⟨["projects"], "P_0000", "Project A", "John Doe",
        "john.doe@example.com", "Group 1", "", 2024, 5, 15, false, none⟩) = true ∧
    ∃ fs', Project.init
        ⟨[["projects"], ["projects", "2024"], ["projects", "2024", "5"],
          ["projects", "2024", "5", "P_0000"]], [], []⟩
        ⟨["projects"], "P_0000", "Project A", "John Doe",
         "john.doe@example.com", "Group 1", "", 2024, 5, 15, false, none⟩
        = .ok (some false, fs') ∧
      fs'.inis = FS.inis ⟨[["projects"], ["projects", "2024"], ["projects", "2024", "5"],
          ["projects", "2024", "5", "P_0000"]], [], []⟩ ∧
      fs'.texts = FS.texts ⟨[["projects"], ["projects", "2024"], ["projects", "2024", "5"],
          ["projects", "2024", "5", "P_0000"]], [], []⟩ ∧
      (∀ q, pathMem (FS.dirs ⟨[["projects"], ["projects", "2024"],
          ["projects", "2024", "5"], ["projects", "2024", "5", "P_0000"]], [], []⟩) q
          = true → pathMem fs'.dirs q = true) :=
  ⟨rfl, c7_existing_target_untouched _ _ rfl⟩

/-- C8: for a `(section, key)` pair of the declared schema present in the
loaded store, `set` followed by `get` on the same key returns exactly the
value that was set, any string value included. -/
theorem c8_set_get_roundtrip (st : Store) (item v p0 p1 : String)
    (rest : List String)
    (_hvalid : item ∈ ConfigurationParser.valid_keys
      ∨ item ∈ MetadataParser.valid_keys)
    (hsplit : pySplit '.' item = p0 :: p1 :: rest)
    {sec : Sec} (hsec : Store.section? st p0 = some sec)
    (hk : (Sec.get? sec p1).isSome = true) :
    (setitem st item v).bind (fun st' => getitem st' item) = .ok v := by
  have h1 := setitem_found item hsplit hsec hk v
  rw [h1]
  show getitem (Store.setIn st p0 p1 v) item = .ok v
  exact getitem_found item hsplit (Store.section?_setIn_self st p1 v hsec)
    (Sec.get?_set_self sec p1 v)

/-- C8 witness: non-ASCII round-trip on the schema key
`user.collaborators` of the metadata store. -/
theorem c8_set_get_roundtrip_witness :
    "user.collaborators" ∈ MetadataParser.valid_keys ∧
    (setitem defaultMetadataStore "user.collaborators" "Jörg Müller").bind
      (fun st' => getitem st' "user.collaborators") = .ok "Jörg Müller" :=
  ⟨by decide,
   c8_set_get_roundtrip defaultMetadataStore "user.collaborators" "Jörg Müller"
     "user" "collaborators" [] (Or.inr (by decide)) rfl rfl rfl⟩

/-- C9 (code_bug): two `ConfigurationParser()` constructions return the
identical reference (the `Singleton` metaclass), but two
`MetadataParser(p)` constructions for the same project folder return
distinct objects — `MetadataParser` lacks the metaclass its docstring
announces — so two divergent in-memory copies of the same metadata store
can exist in one process. -/
theorem c9_metadata_parser_not_singleton :
    ((newConfigurationParser ⟨0, []⟩).1
      = (newConfigurationParser (newConfigurationParser ⟨0, []⟩).2).1) ∧
    ((newMetadataParser ⟨0, []⟩ ["P_0000"]).1
      ≠ (newMetadataParser (newMetadataParser ⟨0, []⟩ ["P_0000"]).2 ["P_0000"]).1) :=
  ⟨rfl, by decide⟩

/-- C10: a key string with no `.` separator whose whole text names a
section of the loaded store (e.g. `"projects"`) passes the section check
and then crashes with `IndexError` at the unconditional `parts[1]` access,
in both the getter and the setter, instead of reporting the `UnknownKey`
validation error. -/
theorem c10_section_name_key_is_index_error (st : Store) (item : String)
    {sec : Sec} (hsplit : pySplit '.' item = [item])
    (hsec : Store.section? st item = some sec) :
    getitem st item = .error .indexError ∧
    ∀ v, setitem st item v = .error .indexError := by
  constructor
  · unfold getitem
    rw [hsplit]
    simp only [getitemParts]
    rw [hsec]
  · intro v
    unfold setitem
    rw [hsplit]
    simp only [setitemParts]
    rw [hsec]

/-- C10 witness: the section names `"projects"` (configuration store) and
`"project"` (metadata store). -/
theorem c10_section_name_key_is_index_error_witness :
    pySplit '.' "projects" = ["projects"] ∧
    getitem defaultConfigStore "projects" = .error .indexError ∧
    setitem defaultConfigStore "projects" "x" = .error .indexError ∧
    getitem defaultMetadataStore "project" = .error .indexError := by
  refine ⟨rfl, ?_, ?_, ?_⟩
  · exact (c10_section_name_key_is_index_error defaultConfigStore "projects" rfl rfl).1
  · exact (c10_section_name_key_is_index_error defaultConfigStore "projects" rfl rfl).2 "x"
  · exact (c10_section_name_key_is_index_error defaultMetadataStore "project" rfl rfl).1
